import Mathlib

/-!
Shallow embedding of `src/device-management/lib/device_management.c`
(Baidu IoT device-shadow client) and verification of its specification.

Modelling conventions:
* `cJSON*` pointers are `Option CJson`; a `none` fed to an operation that the
  C code dereferences unguarded is a crash, which crash-aware functions
  surface as a `none` result.
* Callback function pointers are abstract identifiers (`Nat`); a `none`
  callback field models a NULL function pointer.  Invocations are recorded
  as events rather than executed.
* Fixed-size C arrays (`vault[MAX_IN_FLIGHT_MESSAGE]`, `members[MAX_CLIENT]`)
  are lists whose length is the capacity, so every theorem is parametric in
  the configuration constants of `device_management_conf.h` (not in src/).
* `time_t` is `Nat` (seconds); `difftime` is `Int` subtraction.
* Topic strings are ASCII, so C `tolower` agrees with `String.toLower`.
-/

/-- Return codes of `DmReturnCode` (device_management.h, per §6 of the design). -/
inductive DmReturnCode where
  | SUCCESS
  | FAILURE
  | NULL_POINTER
  | BAD_ARGUMENT
  | NOT_CONNECTED
  | TOO_MANY_IN_FLIGHT_MESSAGE
  | NO_MATCHING_IN_FLIGHT_MESSAGE
  | TOO_MANY_SHADOW_PROPERTY_HANDLER
  deriving DecidableEq, Repr

/-- Embeds `ShadowAction`: which of the three shadow operations a request performs. -/
inductive ShadowAction where
  | SHADOW_INVALID
  | SHADOW_GET
  | SHADOW_UPDATE
  | SHADOW_DELETE
  deriving DecidableEq, Repr

/-- Embeds `ShadowAckStatus`: how a request concluded. -/
inductive ShadowAckStatus where
  | SHADOW_ACK_ACCEPTED
  | SHADOW_ACK_REJECTED
  | SHADOW_ACK_TIMEOUT
  deriving DecidableEq, Repr

/-- A cJSON document tree. -/
inductive CJson where
  | null
  | boolean (b : Bool)
  | num (n : Int)
  | str (s : String)
  | arr (items : List CJson)
  | obj (fields : List (String × CJson))

namespace CJson

/-- Embeds `cJSON_GetObjectItemCaseSensitive(object, name)`: first field whose name
equals `name` exactly; NULL when `object` is NULL or not found. -/
def getCS : Option CJson → String → Option CJson
  | some (obj fields), name => (fields.find? (fun f => f.1 == name)).map (·.2)
  | _, _ => none

/-- Embeds `cJSON_GetObjectItem(object, name)`: case-insensitive field lookup
(lower-casing the character lists models C `strcasecmp` for ASCII names);
NULL when `object` is NULL or not found. -/
def getCI : Option CJson → String → Option CJson
  | some (obj fields), name =>
      (fields.find? (fun f =>
          f.1.data.map Char.toLower == name.data.map Char.toLower)).map (·.2)
  | _, _ => none

/-- The `valuestring` member: the string of a string node, NULL otherwise. -/
def valuestring : CJson → Option String
  | str s => some s
  | _ => none

end CJson

/-- Embeds `strncasecmp(a, b, n) == 0`: the first `n` characters agree
case-insensitively (C comparison stops at a terminating NUL, which taking
the prefix of the whole string models for NUL-free strings; lower-casing
character-wise models C `tolower` for ASCII). -/
def strncaseEq (a b : String) (n : Nat) : Bool :=
  (a.data.take n).map Char.toLower == (b.data.take n).map Char.toLower

/-- Embeds `MAX_REQUEST_ID_LENGTH` (device_management.c line 36). -/
def MAX_REQUEST_ID_LENGTH : Nat := 64

/-- One slot of the in-flight table (`InFlightMessage`). -/
structure InFlightMessage where
  requestId : String
  action : ShadowAction
  callback : Option Nat
  callbackContext : Nat
  timestamp : Nat
  timeout : Nat
  free : Bool
  deriving DecidableEq, Repr

/-- The ack passed to a `ShadowActionCallback` (`ShadowActionAck`). -/
inductive ShadowActionAck where
  | accepted (document : Option CJson)
  | rejected (code message : Option String)
  | timeout

/-- A recorded invocation of a `ShadowActionCallback`: which function pointer
was called, with which action, status, ack and context. -/
structure AckEvent where
  cb : Nat
  action : ShadowAction
  status : ShadowAckStatus
  ack : Option ShadowActionAck
  context : Nat

/-- The slot contents `in_flight_message_add` writes into the first free
slot: occupied, stamped with `createdAt = now`, the id truncated to 64
chars as the unterminated `strncpy` copy behaves under the bounded
comparison. -/
def newInFlightSlot (requestId : String) (action : ShadowAction)
    (callback : Option Nat) (context timeout now : Nat) : InFlightMessage :=
  { requestId := requestId.take MAX_REQUEST_ID_LENGTH
    action := action
    callback := callback
    callbackContext := context
    timestamp := now
    timeout := timeout
    free := false }

/-- Embeds `in_flight_message_add`: scan for the first free slot, populate it
or fail with `TOO_MANY_IN_FLIGHT_MESSAGE` when every slot is taken. -/
def in_flight_message_add (vault : List InFlightMessage) (requestId : String)
    (action : ShadowAction) (callback : Option Nat) (context : Nat)
    (timeout : Nat) (now : Nat) : DmReturnCode × List InFlightMessage :=
  match vault with
  | [] => (DmReturnCode.TOO_MANY_IN_FLIGHT_MESSAGE, [])
  | m :: rest =>
      if m.free then
        (DmReturnCode.SUCCESS,
         newInFlightSlot requestId action callback context timeout now :: rest)
      else
        let r := in_flight_message_add rest requestId action callback context timeout now
        (r.1, m :: r.2)

/-- Whether a reply with id `requestId` matches slot `m`: slot occupied and
ids equal case-insensitively over at most `MAX_REQUEST_ID_LENGTH` chars
(device_management.c lines 683-684). -/
def slotMatches (m : InFlightMessage) (requestId : String) : Bool :=
  !m.free && strncaseEq m.requestId requestId MAX_REQUEST_ID_LENGTH

/-- Build the `ShadowActionAck` that `device_management_shadow_handle_response`
passes to the matched callback.  For a rejected status the C code dereferences
`cJSON_GetObjectItem(payload, "code")` and `..."message"` without a NULL
check, so a payload missing either field is a crash (`none`). -/
def buildAck (status : ShadowAckStatus) (payload : Option CJson) :
    Option ShadowActionAck :=
  match status with
  | ShadowAckStatus.SHADOW_ACK_ACCEPTED => some (ShadowActionAck.accepted payload)
  | ShadowAckStatus.SHADOW_ACK_REJECTED =>
      match CJson.getCI payload "code", CJson.getCI payload "message" with
      | some c, some m => some (ShadowActionAck.rejected c.valuestring m.valuestring)
      | _, _ => none
  | ShadowAckStatus.SHADOW_ACK_TIMEOUT => some ShadowActionAck.timeout

/-- Embeds `device_management_shadow_handle_response`, crash-aware: scan for the
first occupied slot whose id matches, build the ack, invoke the slot's
callback (an unguarded call through the stored pointer: NULL callback or a
rejected payload missing code/message crashes, modelled as `none`), free the
slot and stop; if nothing matches return `NO_MATCHING_IN_FLIGHT_MESSAGE`
with every slot unchanged.  The result records the return code, the new
vault, and the fired event tagged with its slot index. -/
def device_management_shadow_handle_response (vault : List InFlightMessage)
    (requestId : String) (action : ShadowAction) (status : ShadowAckStatus)
    (payload : Option CJson) :
    Option (DmReturnCode × List InFlightMessage × Option (Nat × AckEvent)) :=
  match vault with
  | [] => some (DmReturnCode.NO_MATCHING_IN_FLIGHT_MESSAGE, [], none)
  | m :: rest =>
      if slotMatches m requestId then
        match buildAck status payload, m.callback with
        | some ack, some cb =>
            some (DmReturnCode.SUCCESS,
                  { m with free := true } :: rest,
                  some (0, { cb := cb, action := action, status := status,
                             ack := some ack, context := m.callbackContext }))
        | _, _ => none
      else
        match device_management_shadow_handle_response rest requestId action status payload with
        | none => none
        | some (rc, rest2, ev) =>
            some (rc, m :: rest2, ev.map (fun p => (p.1 + 1, p.2)))

/-- Embeds `in_flight_message_house_keep` on one slot: an occupied slot whose
elapsed time strictly exceeds its timeout fires a timeout ack (only when the
callback pointer is non-NULL) and is freed; every other slot is untouched. -/
def houseKeepSlot (now : Nat) (m : InFlightMessage) :
    InFlightMessage × Option AckEvent :=
  if !m.free && ((now : Int) - (m.timestamp : Int) > (m.timeout : Int)) then
    ({ m with free := true },
     m.callback.map (fun cb =>
       { cb := cb, action := m.action,
         status := ShadowAckStatus.SHADOW_ACK_TIMEOUT,
         ack := none, context := m.callbackContext }))
  else
    (m, none)

/-- Embeds `in_flight_message_house_keep`: reap every expired slot, collecting the
timeout events tagged with their slot indices. -/
def in_flight_message_house_keep (now : Nat) (vault : List InFlightMessage) :
    List InFlightMessage × List (Nat × AckEvent) :=
  match vault with
  | [] => ([], [])
  | m :: rest =>
      let s := houseKeepSlot now m
      let r := in_flight_message_house_keep now rest
      (s.1 :: r.1,
       (match s.2 with | some e => [(0, e)] | none => []) ++
         r.2.map (fun p => (p.1 + 1, p.2)))

/-- Embeds `TOPIC_PREFIX` (device_management.c line 48). -/
def TOPIC_PREFIX : String := "baidu/iot/shadow"

/-- The memoized topic strings of `TopicContract`, including the
subscription array `subTopics[SUB_TOPIC_COUNT]`. -/
structure TopicContract where
  update : String
  updateAccepted : String
  updateRejected : String
  get : String
  getAccepted : String
  getRejected : String
  delete : String
  deleteAccepted : String
  deleteRejected : String
  delta : String
  deltaRejected : String
  subTopics : List String
  deriving DecidableEq, Repr

/-- Embeds `topic_contract_create`: compose the eleven topic strings for a device
and fill the seven-entry subscription array.  Faithful to the source,
including lines 437-438, which store `getAccepted`/`getRejected` into
`subTopics[4]`/`subTopics[5]` instead of the delete topics. -/
def topic_contract_create (deviceName : String) : TopicContract :=
  let update := TOPIC_PREFIX ++ "/" ++ deviceName ++ "/update"
  let updateAccepted := TOPIC_PREFIX ++ "/" ++ deviceName ++ "/update/accepted"
  let updateRejected := TOPIC_PREFIX ++ "/" ++ deviceName ++ "/update/rejected"
  let get := TOPIC_PREFIX ++ "/" ++ deviceName ++ "/get"
  let getAccepted := TOPIC_PREFIX ++ "/" ++ deviceName ++ "/get/accepted"
  let getRejected := TOPIC_PREFIX ++ "/" ++ deviceName ++ "/get/rejected"
  let delete := TOPIC_PREFIX ++ "/" ++ deviceName ++ "/delete"
  let deleteAccepted := TOPIC_PREFIX ++ "/" ++ deviceName ++ "/delete/accepted"
  let deleteRejected := TOPIC_PREFIX ++ "/" ++ deviceName ++ "/delete/rejected"
  let delta := TOPIC_PREFIX ++ "/" ++ deviceName ++ "/delta"
  let deltaRejected := TOPIC_PREFIX ++ "/" ++ deviceName ++ "/delta/rejected"
  { update := update
    updateAccepted := updateAccepted
    updateRejected := updateRejected
    get := get
    getAccepted := getAccepted
    getRejected := getRejected
    delete := delete
    deleteAccepted := deleteAccepted
    deleteRejected := deleteRejected
    delta := delta
    deltaRejected := deltaRejected
    subTopics := [updateAccepted, updateRejected, getAccepted, getRejected,
                  getAccepted, getRejected, delta] }

/-- Embeds `UserDefinedError` returned by a delta callback (destroyer omitted: it
only frees memory). -/
structure UserDefinedError where
  code : String
  message : String
  deriving DecidableEq, Repr

/-- One `ShadowPropertyDeltaHandler` entry: the registered key (NULL means
match the root), an abstract identifier for the callback pointer, and the
callback's behaviour as a Lean function. -/
structure ShadowPropertyDeltaHandler where
  key : Option String
  cb : Nat
  impl : Option String → Option CJson → Option UserDefinedError

/-- A recorded invocation of a `ShadowPropertyDeltaCallback`. -/
structure DeltaEvent where
  cb : Nat
  name : Option String
  value : Option CJson

/-- Embeds `PropertyHandlerTable`: the registered handlers in registration order,
plus the capacity `MAX_SHADOW_PROPERTY_HANDLER` (a configuration constant
of device_management_conf.h, kept parametric). -/
structure PropertyHandlerTable where
  vault : List ShadowPropertyDeltaHandler
  cap : Nat

/-- Embeds `message_get_request_id`: `cJSON_GetObjectItemCaseSensitive(payload,
"requestId")->valuestring` with no NULL check — a missing `requestId`
member is a NULL dereference, modelled as the outer `none`.  The inner
option is the returned `char*`, NULL when the member is not a string. -/
def message_get_request_id (payload : Option CJson) : Option (Option String) :=
  (CJson.getCS payload "requestId").map CJson.valuestring

/-- An MQTT publish issued by the engine. -/
structure PublishedMessage where
  topic : String
  payload : CJson

/-- Embeds `cJSON_AddStringToObject(payload, "requestId", requestId)`: append the
field to an object (a no-op on non-objects, as cJSON's add rejects them). -/
def addRequestId (payload : CJson) (requestId : String) : CJson :=
  match payload with
  | CJson.obj fields => CJson.obj (fields ++ [("requestId", CJson.str requestId)])
  | j => j

/-- Embeds `device_management_shadow_send_json`: stamp the request id into the
payload and hand the serialized message to the transport.  A NULL
`requestId` pointer crashes inside `cJSON_AddStringToObject` (`none`). -/
def device_management_shadow_send_json (topic : String)
    (requestId : Option String) (payload : CJson) : Option PublishedMessage :=
  requestId.map (fun rid => { topic := topic, payload := addRequestId payload rid })

/-- The loop body of `device_management_delta_arrived` (lines 717-730): walk
the handlers in registration order; a NULL-key handler receives the whole
`desired`, a keyed handler receives the sub-object when present and is
skipped otherwise; a non-NULL returned error breaks the loop. -/
def delta_dispatch (desired : Option CJson) :
    List ShadowPropertyDeltaHandler → List DeltaEvent × Option UserDefinedError
  | [] => ([], none)
  | h :: rest =>
      let step : Option DeltaEvent × Option UserDefinedError :=
        match h.key with
        | none => (some ⟨h.cb, none, desired⟩, h.impl none desired)
        | some k =>
            match CJson.getCS desired k with
            | some property =>
                (some ⟨h.cb, some k, some property⟩, h.impl (some k) (some property))
            | none => (none, none)
      match step with
      | (ev, some err) => (ev.toList, some err)
      | (ev, none) =>
          let r := delta_dispatch desired rest
          (ev.toList ++ r.1, r.2)

/-- Embeds `device_management_delta_arrived`, crash-aware: extract the request id
(the unguarded dereference in `message_get_request_id` makes a payload
without `requestId` a crash), look up `desired`, run the handlers, and on a
user error publish `{code, message, requestId}` on `delta/rejected` (a NULL
request-id string crashes there).  Returns the handler invocations and the
optional outbound publish. -/
def device_management_delta_arrived (properties : List ShadowPropertyDeltaHandler)
    (topics : TopicContract) (payload : Option CJson) :
    Option (List DeltaEvent × Option PublishedMessage) :=
  match message_get_request_id payload with
  | none => none
  | some requestId =>
      let desired := CJson.getCS payload "desired"
      let d := delta_dispatch desired properties
      match d.2 with
      | none => some (d.1, none)
      | some err =>
          let responsePayload := CJson.obj
            [("code", CJson.str err.code), ("message", CJson.str err.message)]
          match device_management_shadow_send_json topics.deltaRejected requestId
              responsePayload with
          | none => none
          | some pub => some (d.1, some pub)

/-- The state of one `device_management_client_t` that the claims touch.
`connected` models `MQTTAsync_isConnected(c->mqttClient)`. -/
structure DeviceManagementClient where
  connected : Bool
  hasSubscribed : Bool
  deviceName : String
  topicContract : TopicContract
  properties : PropertyHandlerTable
  messages : List InFlightMessage

/-- Embeds `device_management_is_connected2`: transport connected and the
subscriptions established. -/
def device_management_is_connected2 (c : DeviceManagementClient) : Bool :=
  c.connected && c.hasSubscribed

/-- Embeds `device_management_shadow_register_delta` (the client and callback are
non-NULL, otherwise the C process exits): requires the connected+subscribed
state, then appends to the handler table unless it is at capacity. -/
def device_management_shadow_register_delta (c : DeviceManagementClient)
    (key : Option String) (cb : Nat)
    (impl : Option String → Option CJson → Option UserDefinedError) :
    DmReturnCode × DeviceManagementClient :=
  if !device_management_is_connected2 c then
    (DmReturnCode.NOT_CONNECTED, c)
  else if c.properties.vault.length ≥ c.properties.cap then
    (DmReturnCode.TOO_MANY_SHADOW_PROPERTY_HANDLER, c)
  else
    (DmReturnCode.SUCCESS,
     { c with properties :=
        { c.properties with vault := c.properties.vault ++ [⟨key, cb, impl⟩] } })

/-- Embeds `device_management_shadow_send`: pick the topic for the action (an
invalid action is `BAD_ARGUMENT`), insert the request into the in-flight
table, and only if the insertion succeeded publish the payload.  The
freshly generated UUID (`uuid_generate`/`uuid_unparse`, an external
collaborator) is the `requestId` argument; `now` is `time()`.  No
connection-state check appears in the source. -/
def device_management_shadow_send (c : DeviceManagementClient)
    (action : ShadowAction) (payload : CJson) (callback : Option Nat)
    (context : Nat) (timeout : Nat) (requestId : String) (now : Nat) :
    DmReturnCode × DeviceManagementClient × Option PublishedMessage :=
  let topic? : Option String :=
    match action with
    | ShadowAction.SHADOW_UPDATE => some c.topicContract.update
    | ShadowAction.SHADOW_GET => some c.topicContract.get
    | ShadowAction.SHADOW_DELETE => some c.topicContract.delete
    | ShadowAction.SHADOW_INVALID => none
  match topic? with
  | none => (DmReturnCode.BAD_ARGUMENT, c, none)
  | some topic =>
      let r := in_flight_message_add c.messages requestId action callback context timeout now
      if r.1 ≠ DmReturnCode.SUCCESS then
        (r.1, { c with messages := r.2 }, none)
      else
        (DmReturnCode.SUCCESS, { c with messages := r.2 },
         device_management_shadow_send_json topic (some requestId) payload)

/-- Embeds `device_management_shadow_update`: wrap the reported document as
`{"reported": …}` and send it with action `SHADOW_UPDATE`. -/
def device_management_shadow_update (c : DeviceManagementClient) (reported : CJson)
    (callback : Option Nat) (context : Nat) (timeout : Nat)
    (requestId : String) (now : Nat) :
    DmReturnCode × DeviceManagementClient × Option PublishedMessage :=
  device_management_shadow_send c ShadowAction.SHADOW_UPDATE
    (CJson.obj [("reported", reported)]) callback context timeout requestId now

/-- Embeds `device_management_shadow_get`: send an empty object with `SHADOW_GET`. -/
def device_management_shadow_get (c : DeviceManagementClient)
    (callback : Option Nat) (context : Nat) (timeout : Nat)
    (requestId : String) (now : Nat) :
    DmReturnCode × DeviceManagementClient × Option PublishedMessage :=
  device_management_shadow_send c ShadowAction.SHADOW_GET
    (CJson.obj []) callback context timeout requestId now

/-- Embeds `device_management_shadow_delete`: send an empty object with
`SHADOW_DELETE`. -/
def device_management_shadow_delete (c : DeviceManagementClient)
    (callback : Option Nat) (context : Nat) (timeout : Nat)
    (requestId : String) (now : Nat) :
    DmReturnCode × DeviceManagementClient × Option PublishedMessage :=
  device_management_shadow_send c ShadowAction.SHADOW_DELETE
    (CJson.obj []) callback context timeout requestId now

/-- What `mqtt_on_message_arrived` did with one inbound message. -/
inductive DispatchOutcome where
  | rejectedShort
  | deltaDispatched (events : List DeltaEvent) (published : Option PublishedMessage)
  | replyCompleted (action : ShadowAction) (status : ShadowAckStatus) (rc : DmReturnCode)
  | droppedNoRequestId
  | droppedUnknownTopic

/-- Embeds `strncasecmp(contractTopic, topicName, strlen(contractTopic)) == 0`:
the inbound topic starts with the contract topic, case-insensitively. -/
def topicPrefixMatch (contractTopic topicName : String) : Bool :=
  strncaseEq contractTopic topicName contractTopic.length

/-- Embeds `mqtt_on_message_arrived`, crash-aware.  `parsed` is the result of
`cJSON_Parse` on the (NUL-terminated copy of the) payload — JSON parsing is
an injected collaborator — and is NULL on parse failure, which the source
never checks.  Payloads shorter than 3 bytes are rejected before parsing.
The topic is compared by case-insensitive prefix against `delta`,
`update/accepted`, `update/rejected`, `get/accepted` and `get/rejected`
(there is no branch for the delete reply topics); any other topic is
logged and dropped.  For a classified reply the request id is read with the
case-insensitive getter; a missing member is logged and dropped, while a
non-string member yields a NULL `valuestring` that `strncasecmp` dereferences
at the first occupied slot.  Result: the outcome, the updated client, and
the fired action callbacks; `none` is a crash. -/
def mqtt_on_message_arrived (c : DeviceManagementClient) (topicName : String)
    (payloadlen : Nat) (parsed : Option CJson) :
    Option (DispatchOutcome × DeviceManagementClient × List (Nat × AckEvent)) :=
  if payloadlen < 3 then some (DispatchOutcome.rejectedShort, c, [])
  else
    let payload := parsed
    if topicPrefixMatch c.topicContract.delta topicName then
      match device_management_delta_arrived c.properties.vault c.topicContract payload with
      | none => none
      | some r => some (DispatchOutcome.deltaDispatched r.1 r.2, c, [])
    else
      let cls : ShadowAction × ShadowAckStatus :=
        if topicPrefixMatch c.topicContract.updateAccepted topicName then
          (ShadowAction.SHADOW_UPDATE, ShadowAckStatus.SHADOW_ACK_ACCEPTED)
        else if topicPrefixMatch c.topicContract.updateRejected topicName then
          (ShadowAction.SHADOW_UPDATE, ShadowAckStatus.SHADOW_ACK_REJECTED)
        else if topicPrefixMatch c.topicContract.getAccepted topicName then
          (ShadowAction.SHADOW_GET, ShadowAckStatus.SHADOW_ACK_ACCEPTED)
        else if topicPrefixMatch c.topicContract.getRejected topicName then
          (ShadowAction.SHADOW_GET, ShadowAckStatus.SHADOW_ACK_REJECTED)
        else (ShadowAction.SHADOW_INVALID, ShadowAckStatus.SHADOW_ACK_ACCEPTED)
      if cls.1 = ShadowAction.SHADOW_INVALID then
        some (DispatchOutcome.droppedUnknownTopic, c, [])
      else
        match CJson.getCI payload "requestId" with
        | none => some (DispatchOutcome.droppedNoRequestId, c, [])
        | some node =>
            match node.valuestring with
            | some rid =>
                match device_management_shadow_handle_response c.messages rid
                    cls.1 cls.2 payload with
                | none => none
                | some r =>
                    some (DispatchOutcome.replyCompleted cls.1 cls.2 r.1,
                          { c with messages := r.2.1 }, r.2.2.toList)
            | none =>
                if c.messages.any (fun m => !m.free) then none
                else
                  some (DispatchOutcome.replyCompleted cls.1 cls.2
                          DmReturnCode.NO_MATCHING_IN_FLIGHT_MESSAGE, c, [])

/-- Embeds `client_group_add`: store the client in the first NULL slot of
`members[MAX_CLIENT]`; `false` (ignored by the caller) when the group is
full.  Clients are abstract identifiers. -/
def client_group_add : List (Option Nat) → Nat → Bool × List (Option Nat)
  | [], _ => (false, [])
  | none :: rest, client => (true, some client :: rest)
  | some m :: rest, client =>
      let r := client_group_add rest client
      (r.1, some m :: r.2)

/-- Embeds `client_group_iterate`: the members `fp` is invoked on, in slot order. -/
def client_group_iterate : List (Option Nat) → List Nat
  | [] => []
  | some m :: rest => m :: client_group_iterate rest
  | none :: rest => client_group_iterate rest

/-- The registry effect of `device_management_create` (transport creation,
an external collaborator, succeeds): the new client is handed back and
`client_group_add`'s return value is discarded, so the result is `SUCCESS`
whether or not the client entered the group. -/
def device_management_create (group : List (Option Nat)) (clientId : Nat) :
    DmReturnCode × List (Option Nat) :=
  (DmReturnCode.SUCCESS, (client_group_add group clientId).2)

/-- One tick of `in_flight_message_house_keep_proc`: the clients on which
`in_flight_message_house_keep` is invoked, via `client_group_iterate`. -/
def in_flight_message_house_keep_proc_tick (group : List (Option Nat)) : List Nat :=
  client_group_iterate group

/-- An event acting on a client's in-flight table: a broker reply driving
`device_management_shadow_handle_response`, or one reaper pass
(`in_flight_message_house_keep`) at wall time `now`.  The table mutex
serializes the two, so an execution is a sequence of these events. -/
inductive TableEvent where
  | complete (requestId : String) (action : ShadowAction)
      (status : ShadowAckStatus) (payload : Option CJson)
  | houseKeep (now : Nat)

/-- Apply one event to the table; `none` is a crash. -/
def applyEvent : TableEvent → List InFlightMessage →
    Option (List InFlightMessage × List (Nat × AckEvent))
  | TableEvent.complete rid action status payload, vault =>
      (device_management_shadow_handle_response vault rid action status payload).map
        (fun r => (r.2.1, r.2.2.toList))
  | TableEvent.houseKeep now, vault => some (in_flight_message_house_keep now vault)

/-- Run a sequence of reply/reaper events over the table, collecting every
fired callback tagged with its slot index; the flag records whether the
process crashed (after which nothing more runs). -/
def runEvents : List TableEvent → List InFlightMessage →
    List InFlightMessage × List (Nat × AckEvent) × Bool
  | [], vault => (vault, [], false)
  | e :: es, vault =>
      match applyEvent e vault with
      | none => (vault, [], true)
      | some r =>
          let rest := runEvents es r.1
          (rest.1, r.2 ++ rest.2.1, rest.2.2)

/-- How many of the fired callbacks belong to slot `i`. -/
def countFires (fires : List (Nat × AckEvent)) (i : Nat) : Nat :=
  (fires.filter (fun p => p.1 == i)).length

/-- Slot `i` of the table holds no occupied entry (it is free or out of
range). -/
def slotFreed (vault : List InFlightMessage) (i : Nat) : Prop :=
  ∀ m : InFlightMessage, vault[i]? = some m → m.free = true

/-- The reaper loop of `in_flight_message_house_keep_proc` restricted to one
client: run `in_flight_message_house_keep` at each wall time in `ticks`,
recording each fired callback with the tick at which it fired. -/
def reaperRun : List Nat → List InFlightMessage →
    List InFlightMessage × List (Nat × Nat × AckEvent)
  | [], vault => (vault, [])
  | t :: ts, vault =>
      let r := in_flight_message_house_keep t vault
      let rest := reaperRun ts r.1
      (rest.1, r.2.map (fun p => (t, p.1, p.2)) ++ rest.2)

/-- The evolution of a single in-flight slot under reaper passes at the
given wall times, with the timeout events it fires (the projection of
`reaperRun` to one slot). -/
def slotTicks : List Nat → InFlightMessage → InFlightMessage × List (Nat × AckEvent)
  | [], m => (m, [])
  | t :: ts, m =>
      let s := houseKeepSlot t m
      let rest := slotTicks ts s.1
      (rest.1, (match s.2 with | some e => [(t, e)] | none => []) ++ rest.2)

/-- Specification-side treatment of one handler during delta dispatch,
written from the spec's words (§4.3): once a user error has been produced
the remaining handlers are skipped; otherwise a keyless handler receives
the whole desired document and a keyed handler only its sub-object, and
only when that sub-object is present. -/
def deltaDispatchSpecStep (desired : Option CJson)
    (acc : List DeltaEvent × Option UserDefinedError)
    (h : ShadowPropertyDeltaHandler) : List DeltaEvent × Option UserDefinedError :=
  match acc.2 with
  | some _ => acc
  | none =>
      match h.key with
      | none =>
          (acc.1 ++ [{ cb := h.cb, name := none, value := desired }],
           h.impl none desired)
      | some k =>
          match CJson.getCS desired k with
          | some sub =>
              (acc.1 ++ [{ cb := h.cb, name := some k, value := some sub }],
               h.impl (some k) (some sub))
          | none => acc

/-- Specification-side delta dispatch: fold the handlers in registration
order, collecting the invocations and the first user error. -/
def deltaDispatchSpec (desired : Option CJson)
    (handlers : List ShadowPropertyDeltaHandler) :
    List DeltaEvent × Option UserDefinedError :=
  handlers.foldl (deltaDispatchSpecStep desired) ([], none)

/-- A vacant slot, as `device_management_create` initializes the table. -/
def vacantSlot : InFlightMessage :=
  { requestId := "", action := ShadowAction.SHADOW_INVALID, callback := none,
    callbackContext := 0, timestamp := 0, timeout := 0, free := true }

/-- A concrete occupied slot: a pending DELETE request with id "RID-1",
published at time 100 with a 5-second timeout. -/
def pendingDeleteSlot : InFlightMessage :=
  { requestId := "RID-1", action := ShadowAction.SHADOW_DELETE,
    callback := some 7, callbackContext := 3, timestamp := 100, timeout := 5,
    free := false }

/-- A concrete READY client for device "dev1" with one pending DELETE
request and one vacant slot. -/
def dev1Client : DeviceManagementClient :=
  { connected := true, hasSubscribed := true, deviceName := "dev1",
    topicContract := topic_contract_create "dev1",
    properties := { vault := [], cap := 4 },
    messages := [pendingDeleteSlot, vacantSlot] }

/-- The same client before connecting: neither connected nor subscribed. -/
def disconnectedClient : DeviceManagementClient :=
  { dev1Client with connected := false, hasSubscribed := false }

/-- The dev1 client with every in-flight slot occupied. -/
def fullTableClient : DeviceManagementClient :=
  { dev1Client with messages := [pendingDeleteSlot] }

/-- A concrete keyless delta handler that accepts everything. -/
def rootHandler : ShadowPropertyDeltaHandler :=
  { key := none, cb := 1, impl := fun _ _ => none }

/-- A concrete handler for the property "bright" that always reports a
range error. -/
def brightHandler : ShadowPropertyDeltaHandler :=
  { key := some "bright", cb := 2,
    impl := fun _ _ => some { code := "E_RANGE", message := "out of range" } }

/-- A concrete delta payload: requestId "r9" and a desired document
containing the property "bright". -/
def sampleDeltaPayload : CJson :=
  CJson.obj [("requestId", CJson.str "r9"),
             ("desired", CJson.obj [("bright", CJson.num 80)])]

/-! Helper lemmas shared by the claim theorems. -/

/-- With no NULL slot left, `client_group_add` reports failure and leaves
the group unchanged. -/
theorem client_group_add_full (group : List (Option Nat)) (client : Nat)
    (h : ∀ s ∈ group, s ≠ none) :
    client_group_add group client = (false, group) := by
  induction group with
  | nil => rfl
  | cons s rest ih =>
      cases s with
      | none => exact absurd rfl (h none (List.mem_cons_self _ _))
      | some m =>
          have := ih (fun x hx => h x (List.mem_cons_of_mem _ hx))
          simp [client_group_add, this]

/-- The insertion outcome is SUCCESS or the capacity error, and on the
capacity error the vault is returned unchanged. -/
theorem in_flight_message_add_rc (vault : List InFlightMessage) (rid : String)
    (action : ShadowAction) (callback : Option Nat) (context timeout now : Nat) :
    (in_flight_message_add vault rid action callback context timeout now).1
        = DmReturnCode.SUCCESS ∨
    ((in_flight_message_add vault rid action callback context timeout now).1
        = DmReturnCode.TOO_MANY_IN_FLIGHT_MESSAGE ∧
     (in_flight_message_add vault rid action callback context timeout now).2 = vault) := by
  induction vault with
  | nil => exact Or.inr ⟨rfl, rfl⟩
  | cons m rest ih =>
      by_cases hf : m.free = true
      · left; simp [in_flight_message_add, hf]
      · rcases ih with h1 | ⟨h1, h2⟩
        · left; simp [in_flight_message_add, hf, h1]
        · right; simp [in_flight_message_add, hf, h1, h2]

/-- None of the shadow send paths inspects the connection state, so none
can return `NOT_CONNECTED`. -/
theorem shadow_send_never_not_connected (c : DeviceManagementClient)
    (action : ShadowAction) (payload : CJson) (callback : Option Nat)
    (context timeout : Nat) (rid : String) (now : Nat) :
    (device_management_shadow_send c action payload callback context timeout rid now).1
        ≠ DmReturnCode.NOT_CONNECTED := by
  cases action with
  | SHADOW_INVALID => simp [device_management_shadow_send]
  | SHADOW_GET =>
      rcases in_flight_message_add_rc c.messages rid ShadowAction.SHADOW_GET
          callback context timeout now with h | ⟨h, _⟩ <;>
        simp [device_management_shadow_send, h]
  | SHADOW_UPDATE =>
      rcases in_flight_message_add_rc c.messages rid ShadowAction.SHADOW_UPDATE
          callback context timeout now with h | ⟨h, _⟩ <;>
        simp [device_management_shadow_send, h]
  | SHADOW_DELETE =>
      rcases in_flight_message_add_rc c.messages rid ShadowAction.SHADOW_DELETE
          callback context timeout now with h | ⟨h, _⟩ <;>
        simp [device_management_shadow_send, h]

/-! Claim theorems. -/

/-- Claim C2 (code bug evaluation): the subscription list built by
`topic_contract_create` for device "dev1" contains the get reply topics
twice (slots 4 and 5 repeat slots 2 and 3) and the delete reply topics not
at all, instead of the seven distinct inbound topics. -/
theorem subTopics_duplicate_get_and_miss_delete :
    (topic_contract_create "dev1").subTopics
        = ["baidu/iot/shadow/dev1/update/accepted",
           "baidu/iot/shadow/dev1/update/rejected",
           "baidu/iot/shadow/dev1/get/accepted",
           "baidu/iot/shadow/dev1/get/rejected",
           "baidu/iot/shadow/dev1/get/accepted",
           "baidu/iot/shadow/dev1/get/rejected",
           "baidu/iot/shadow/dev1/delta"] ∧
    (topic_contract_create "dev1").deleteAccepted
        = "baidu/iot/shadow/dev1/delete/accepted" ∧
    (topic_contract_create "dev1").deleteAccepted
        ∉ (topic_contract_create "dev1").subTopics ∧
    (topic_contract_create "dev1").deleteRejected
        ∉ (topic_contract_create "dev1").subTopics := by
  refine ⟨rfl, rfl, ?_, ?_⟩ <;> decide

/-- Claim C3 (code bug evaluation): an inbound reply on the
`delete/accepted` topic, carrying a request id that matches the pending
DELETE request, is logged and dropped as an unexpected topic —
`mqtt_on_message_arrived` has no branch for the delete reply topics — so
the in-flight entry is not completed and no callback fires. -/
theorem delete_accepted_reply_dropped :
    mqtt_on_message_arrived dev1Client "baidu/iot/shadow/dev1/delete/accepted" 20
        (some (CJson.obj [("requestId", CJson.str "RID-1")]))
      = some (DispatchOutcome.droppedUnknownTopic, dev1Client, []) := rfl

/-- Claim C5 (code bug evaluation): the dispatcher crashes on malformed
inbound data: a delta payload that fails JSON parsing is passed to
`device_management_delta_arrived` unchecked, a parsed delta payload missing
`requestId` is dereferenced through NULL in `message_get_request_id`, and a
rejected reply missing `code`/`message` is dereferenced through NULL in
`device_management_shadow_handle_response`.  Each case is a crash (`none`). -/
theorem malformed_inbound_payload_crashes :
    mqtt_on_message_arrived dev1Client "baidu/iot/shadow/dev1/delta" 20 none = none ∧
    mqtt_on_message_arrived dev1Client "baidu/iot/shadow/dev1/delta" 20
        (some (CJson.obj [("desired", CJson.obj [])])) = none ∧
    mqtt_on_message_arrived dev1Client "baidu/iot/shadow/dev1/update/rejected" 20
        (some (CJson.obj [("requestId", CJson.str "RID-1")])) = none :=
  ⟨rfl, rfl, rfl⟩

/-- Claim C10: with every registry slot taken, `device_management_create`
still returns SUCCESS — the failed `client_group_add` is ignored — and the
new client is absent from the registry, so a reaper tick
(`in_flight_message_house_keep_proc_tick`) never visits it and its pending
requests are never reaped. -/
theorem create_overflow_silently_unregistered (group : List (Option Nat))
    (clientId : Nat) (hfull : ∀ s ∈ group, s ≠ none)
    (hnew : clientId ∉ client_group_iterate group) :
    device_management_create group clientId = (DmReturnCode.SUCCESS, group) ∧
    clientId ∉ in_flight_message_house_keep_proc_tick
        (device_management_create group clientId).2 := by
  have h := client_group_add_full group clientId hfull
  refine ⟨?_, ?_⟩
  · simp [device_management_create, h]
  · simpa [device_management_create, h, in_flight_message_house_keep_proc_tick]
      using hnew

/-- Witness for C10 at a concrete full two-slot registry. -/
theorem create_overflow_silently_unregistered_witness :
    device_management_create [some 1, some 2] 3
        = (DmReturnCode.SUCCESS, [some 1, some 2]) ∧
    3 ∉ in_flight_message_house_keep_proc_tick
        (device_management_create [some 1, some 2] 3).2 :=
  create_overflow_silently_unregistered [some 1, some 2] 3 (by decide) (by decide)

/-- Counterexample to claim C4 as stated: on a client that is not READY,
`device_management_shadow_update` does not return NOT_CONNECTED and is not
effect-free — it returns SUCCESS, occupies the vacant in-flight slot
(two slots occupied afterwards) and hands a message to the transport. -/
theorem update_without_ready_counterexample :
    (device_management_shadow_update disconnectedClient (CJson.obj [])
        (some 1) 0 5 "uuid-1" 50).1 = DmReturnCode.SUCCESS ∧
    (device_management_shadow_update disconnectedClient (CJson.obj [])
        (some 1) 0 5 "uuid-1" 50).2.2.isSome = true ∧
    ((device_management_shadow_update disconnectedClient (CJson.obj [])
        (some 1) 0 5 "uuid-1" 50).2.1.messages.filter (fun m => !m.free)).length = 2 :=
  ⟨rfl, rfl, rfl⟩

/-- Claim C4 as amended: only `registerDelta` enforces the READY state —
on a client that is not connected-and-subscribed it returns NOT_CONNECTED
and appends nothing — while `update`, `get` and `delete` perform no
connectivity check and never return NOT_CONNECTED. -/
theorem register_delta_requires_ready (c : DeviceManagementClient)
    (h : device_management_is_connected2 c = false) (key : Option String)
    (cb : Nat) (impl : Option String → Option CJson → Option UserDefinedError)
    (reported : CJson) (callback : Option Nat) (context timeout : Nat)
    (requestId : String) (now : Nat) :
    device_management_shadow_register_delta c key cb impl
        = (DmReturnCode.NOT_CONNECTED, c) ∧
    (device_management_shadow_update c reported callback context timeout requestId now).1
        ≠ DmReturnCode.NOT_CONNECTED ∧
    (device_management_shadow_get c callback context timeout requestId now).1
        ≠ DmReturnCode.NOT_CONNECTED ∧
    (device_management_shadow_delete c callback context timeout requestId now).1
        ≠ DmReturnCode.NOT_CONNECTED := by
  refine ⟨?_, ?_, ?_, ?_⟩
  · simp [device_management_shadow_register_delta, h]
  · exact shadow_send_never_not_connected c _ _ callback context timeout requestId now
  · exact shadow_send_never_not_connected c _ _ callback context timeout requestId now
  · exact shadow_send_never_not_connected c _ _ callback context timeout requestId now

/-- Witness for the amended C4 at the concrete disconnected client. -/
theorem register_delta_requires_ready_witness :
    device_management_shadow_register_delta disconnectedClient none 9 (fun _ _ => none)
        = (DmReturnCode.NOT_CONNECTED, disconnectedClient) ∧
    (device_management_shadow_get disconnectedClient (some 1) 0 5 "u" 50).1
        ≠ DmReturnCode.NOT_CONNECTED :=
  ⟨(register_delta_requires_ready disconnectedClient rfl none 9 (fun _ _ => none)
      (CJson.obj []) (some 1) 0 5 "u" 50).1,
   (register_delta_requires_ready disconnectedClient rfl none 9 (fun _ _ => none)
      (CJson.obj []) (some 1) 0 5 "u" 50).2.2.1⟩

/-- With the table full, `in_flight_message_add` fails with the capacity
error and returns the vault unchanged. -/
theorem in_flight_message_add_full (vault : List InFlightMessage) (rid : String)
    (action : ShadowAction) (callback : Option Nat) (context timeout now : Nat)
    (h : ∀ m ∈ vault, m.free = false) :
    in_flight_message_add vault rid action callback context timeout now
        = (DmReturnCode.TOO_MANY_IN_FLIGHT_MESSAGE, vault) := by
  induction vault with
  | nil => rfl
  | cons m rest ih =>
      have hf : m.free = false := h m (List.mem_cons_self _ _)
      have := ih (fun x hx => h x (List.mem_cons_of_mem _ hx))
      simp [in_flight_message_add, hf, this]

/-- With a free slot available, `in_flight_message_add` succeeds and the new
entry is in the resulting vault. -/
theorem in_flight_message_add_success (vault : List InFlightMessage) (rid : String)
    (action : ShadowAction) (callback : Option Nat) (context timeout now : Nat)
    (h : ∃ m ∈ vault, m.free = true) :
    (in_flight_message_add vault rid action callback context timeout now).1
        = DmReturnCode.SUCCESS ∧
    newInFlightSlot rid action callback context timeout now
        ∈ (in_flight_message_add vault rid action callback context timeout now).2 := by
  induction vault with
  | nil => obtain ⟨m, hm, _⟩ := h; exact absurd hm (List.not_mem_nil m)
  | cons m rest ih =>
      by_cases hf : m.free = true
      · refine ⟨by simp [in_flight_message_add, hf], ?_⟩
        simp [in_flight_message_add, hf]
      · obtain ⟨x, hx, hxf⟩ := h
        rcases List.mem_cons.mp hx with hxm | hxr
        · exact absurd (hxm ▸ hxf) hf
        · obtain ⟨h1, h2⟩ := ih ⟨x, hxr, hxf⟩
          refine ⟨by simp [in_flight_message_add, hf, h1], ?_⟩
          simp only [in_flight_message_add, hf]
          simpa using Or.inr h2

/-- Claim C6: each of `update`, `get` and `delete` inserts the freshly
generated request id into the in-flight table before publishing: with every
slot occupied the call returns TOO_MANY_IN_FLIGHT_MESSAGE, the table is
unchanged and nothing is published; with a free slot the call succeeds, the
occupied entry carrying the request id is in the resulting table, and the
message handed to the transport carries the same id. -/
theorem shadow_ops_insert_before_publish (c : DeviceManagementClient)
    (reported : CJson) (callback : Option Nat) (context timeout : Nat)
    (rid : String) (now : Nat) :
    ((∀ m ∈ c.messages, m.free = false) →
       device_management_shadow_update c reported callback context timeout rid now
           = (DmReturnCode.TOO_MANY_IN_FLIGHT_MESSAGE, c, none) ∧
       device_management_shadow_get c callback context timeout rid now
           = (DmReturnCode.TOO_MANY_IN_FLIGHT_MESSAGE, c, none) ∧
       device_management_shadow_delete c callback context timeout rid now
           = (DmReturnCode.TOO_MANY_IN_FLIGHT_MESSAGE, c, none)) ∧
    ((∃ m ∈ c.messages, m.free = true) →
       (device_management_shadow_update c reported callback context timeout rid now).1
           = DmReturnCode.SUCCESS ∧
       (device_management_shadow_update c reported callback context timeout rid now).2.2
           = some { topic := c.topicContract.update,
                    payload := addRequestId (CJson.obj [("reported", reported)]) rid } ∧
       newInFlightSlot rid ShadowAction.SHADOW_UPDATE callback context timeout now
           ∈ (device_management_shadow_update c reported callback context timeout rid now).2.1.messages ∧
       (device_management_shadow_get c callback context timeout rid now).1
           = DmReturnCode.SUCCESS ∧
       (device_management_shadow_get c callback context timeout rid now).2.2
           = some { topic := c.topicContract.get,
                    payload := addRequestId (CJson.obj []) rid } ∧
       newInFlightSlot rid ShadowAction.SHADOW_GET callback context timeout now
           ∈ (device_management_shadow_get c callback context timeout rid now).2.1.messages ∧
       (device_management_shadow_delete c callback context timeout rid now).1
           = DmReturnCode.SUCCESS ∧
       (device_management_shadow_delete c callback context timeout rid now).2.2
           = some { topic := c.topicContract.delete,
                    payload := addRequestId (CJson.obj []) rid } ∧
       newInFlightSlot rid ShadowAction.SHADOW_DELETE callback context timeout now
           ∈ (device_management_shadow_delete c callback context timeout rid now).2.1.messages) := by
  constructor
  · intro hfull
    have hu := in_flight_message_add_full c.messages rid ShadowAction.SHADOW_UPDATE
        callback context timeout now hfull
    have hg := in_flight_message_add_full c.messages rid ShadowAction.SHADOW_GET
        callback context timeout now hfull
    have hd := in_flight_message_add_full c.messages rid ShadowAction.SHADOW_DELETE
        callback context timeout now hfull
    refine ⟨?_, ?_, ?_⟩ <;>
      simp [device_management_shadow_update, device_management_shadow_get,
            device_management_shadow_delete, device_management_shadow_send, hu, hg, hd]
  · intro hfree
    obtain ⟨hu1, hu2⟩ := in_flight_message_add_success c.messages rid
        ShadowAction.SHADOW_UPDATE callback context timeout now hfree
    obtain ⟨hg1, hg2⟩ := in_flight_message_add_success c.messages rid
        ShadowAction.SHADOW_GET callback context timeout now hfree
    obtain ⟨hd1, hd2⟩ := in_flight_message_add_success c.messages rid
        ShadowAction.SHADOW_DELETE callback context timeout now hfree
    refine ⟨?_, ?_, ?_, ?_, ?_, ?_, ?_, ?_, ?_⟩ <;>
      simp [device_management_shadow_update, device_management_shadow_get,
            device_management_shadow_delete, device_management_shadow_send,
            device_management_shadow_send_json, hu1, hu2, hg1, hg2, hd1, hd2]

/-- Witness for C6: on the client with a full table, update fails with the
capacity error and publishes nothing; on the client with a free slot, get
succeeds and publishes. -/
theorem shadow_ops_insert_before_publish_witness :
    device_management_shadow_update fullTableClient (CJson.obj []) (some 1) 0 5 "u1" 50
        = (DmReturnCode.TOO_MANY_IN_FLIGHT_MESSAGE, fullTableClient, none) ∧
    (device_management_shadow_get dev1Client (some 1) 0 5 "u1" 50).1
        = DmReturnCode.SUCCESS :=
  ⟨((shadow_ops_insert_before_publish fullTableClient (CJson.obj []) (some 1) 0 5 "u1" 50).1
      (by decide)).1,
   (((shadow_ops_insert_before_publish dev1Client (CJson.obj []) (some 1) 0 5 "u1" 50).2
      ⟨vacantSlot, by decide, rfl⟩).2.2.2.1)⟩

/-- With no occupied slot matching the request id,
`device_management_shadow_handle_response` warns and returns
`NO_MATCHING_IN_FLIGHT_MESSAGE` with every slot unchanged. -/
theorem handle_response_no_match (vault : List InFlightMessage) (rid : String)
    (action : ShadowAction) (status : ShadowAckStatus) (payload : Option CJson)
    (h : ∀ (j : Nat) (mj : InFlightMessage), vault[j]? = some mj →
        slotMatches mj rid = false) :
    device_management_shadow_handle_response vault rid action status payload
        = some (DmReturnCode.NO_MATCHING_IN_FLIGHT_MESSAGE, vault, none) := by
  induction vault with
  | nil => rfl
  | cons m rest ih =>
      have h0 : slotMatches m rid = false := h 0 m (by simp)
      have ih' := ih (fun j mj hj => h (j + 1) mj (by simpa using hj))
      simp [device_management_shadow_handle_response, h0, ih']

/-- The first occupied slot whose id matches fires its callback with the
built ack and is freed; every other slot is unchanged and the scan stops. -/
theorem handle_response_found (vault : List InFlightMessage) (rid : String)
    (action : ShadowAction) (status : ShadowAckStatus) (payload : Option CJson)
    (ack : ShadowActionAck) (i : Nat) (m : InFlightMessage) (cb : Nat)
    (hack : buildAck status payload = some ack)
    (hm : vault[i]? = some m) (hmatch : slotMatches m rid = true)
    (hfirst : ∀ j, j < i → ∀ (mj : InFlightMessage), vault[j]? = some mj →
        slotMatches mj rid = false)
    (hcb : m.callback = some cb) :
    device_management_shadow_handle_response vault rid action status payload
        = some (DmReturnCode.SUCCESS, vault.set i { m with free := true },
                some (i, { cb := cb, action := action, status := status,
                           ack := some ack, context := m.callbackContext })) := by
  induction vault generalizing i with
  | nil => simp at hm
  | cons hd rest ih =>
      cases i with
      | zero =>
          have hhd : hd = m := by simpa using hm
          subst hhd
          simp [device_management_shadow_handle_response, hmatch, hack, hcb]
      | succ i' =>
          have h0 : slotMatches hd rid = false :=
            hfirst 0 (Nat.succ_pos i') hd (by simp)
          have hm' : rest[i']? = some m := by simpa using hm
          have hfirst' : ∀ j, j < i' → ∀ (mj : InFlightMessage), rest[j]? = some mj →
              slotMatches mj rid = false :=
            fun j hj mj hmj =>
              hfirst (j + 1) (Nat.succ_lt_succ hj) mj (by simpa using hmj)
          have ih' := ih i' hm' hfirst'
          simp [device_management_shadow_handle_response, h0, ih']

/-- Claim C7: `device_management_shadow_handle_response` scans for an
occupied slot whose id matches case-insensitively over at most 64 chars; if
none matches it returns NO_MATCHING_IN_FLIGHT_MESSAGE with every slot
unchanged; the first match fires that slot's callback with the supplied
status and ack — for rejected, with code and message extracted from the
payload — frees exactly that slot and returns SUCCESS. -/
theorem handle_response_complete_or_no_match (vault : List InFlightMessage)
    (rid : String) (action : ShadowAction) (status : ShadowAckStatus)
    (payload : Option CJson) (ack : ShadowActionAck)
    (hack : buildAck status payload = some ack) :
    ((∀ (j : Nat) (mj : InFlightMessage), vault[j]? = some mj →
        slotMatches mj rid = false) →
       device_management_shadow_handle_response vault rid action status payload
           = some (DmReturnCode.NO_MATCHING_IN_FLIGHT_MESSAGE, vault, none)) ∧
    (∀ (i : Nat) (m : InFlightMessage) (cb : Nat), vault[i]? = some m →
       slotMatches m rid = true →
       (∀ j, j < i → ∀ (mj : InFlightMessage), vault[j]? = some mj →
           slotMatches mj rid = false) →
       m.callback = some cb →
       device_management_shadow_handle_response vault rid action status payload
           = some (DmReturnCode.SUCCESS, vault.set i { m with free := true },
                   some (i, { cb := cb, action := action, status := status,
                              ack := some ack, context := m.callbackContext }))) ∧
    (status = ShadowAckStatus.SHADOW_ACK_REJECTED →
       ∀ cj mj, CJson.getCI payload "code" = some cj →
         CJson.getCI payload "message" = some mj →
         ack = ShadowActionAck.rejected cj.valuestring mj.valuestring) := by
  refine ⟨fun h => handle_response_no_match vault rid action status payload h,
          fun i m cb hm hmatch hfirst hcb =>
            handle_response_found vault rid action status payload ack i m cb
              hack hm hmatch hfirst hcb,
          fun hst cj mj hc hm2 => ?_⟩
  subst hst
  simp [buildAck, hc, hm2] at hack
  exact hack.symm

/-- Witness for C7: the pending DELETE request with id "RID-1" is completed
by a reply carrying "rid-1" (case-insensitive match), firing callback 7 and
freeing slot 0. -/
theorem handle_response_complete_or_no_match_witness :
    device_management_shadow_handle_response [pendingDeleteSlot, vacantSlot] "rid-1"
        ShadowAction.SHADOW_DELETE ShadowAckStatus.SHADOW_ACK_ACCEPTED
        (some (CJson.obj []))
      = some (DmReturnCode.SUCCESS,
              [{ pendingDeleteSlot with free := true }, vacantSlot],
              some (0, { cb := 7, action := ShadowAction.SHADOW_DELETE,
                         status := ShadowAckStatus.SHADOW_ACK_ACCEPTED,
                         ack := some (ShadowActionAck.accepted (some (CJson.obj []))),
                         context := 3 })) :=
  (handle_response_complete_or_no_match [pendingDeleteSlot, vacantSlot] "rid-1"
      ShadowAction.SHADOW_DELETE ShadowAckStatus.SHADOW_ACK_ACCEPTED
      (some (CJson.obj [])) (ShadowActionAck.accepted (some (CJson.obj []))) rfl).2.1
    0 pendingDeleteSlot 7 (by simp) rfl (fun j hj mj _ => absurd hj (Nat.not_lt_zero j)) rfl

/-- Once a user error is in the accumulator, the specification fold skips
every remaining handler. -/
theorem foldl_spec_absorb (desired : Option CJson)
    (hs : List ShadowPropertyDeltaHandler) (evs : List DeltaEvent)
    (err : UserDefinedError) :
    hs.foldl (deltaDispatchSpecStep desired) (evs, some err) = (evs, some err) := by
  induction hs with
  | nil => rfl
  | cons h rest ih => simpa [deltaDispatchSpecStep] using ih

/-- The specification fold agrees with the source loop of
`device_management_delta_arrived` (via `delta_dispatch`). -/
theorem foldl_spec_delta_dispatch (desired : Option CJson) :
    ∀ (hs : List ShadowPropertyDeltaHandler) (evs : List DeltaEvent),
    hs.foldl (deltaDispatchSpecStep desired) (evs, none)
      = (evs ++ (delta_dispatch desired hs).1, (delta_dispatch desired hs).2) := by
  intro hs
  induction hs with
  | nil => intro evs; simp [delta_dispatch]
  | cons h rest ih =>
      intro evs
      cases hk : h.key with
      | none =>
          cases himp : h.impl none desired with
          | none =>
              simp [List.foldl, deltaDispatchSpecStep, hk, himp, delta_dispatch, ih]
          | some err =>
              simp [List.foldl, deltaDispatchSpecStep, hk, himp, delta_dispatch,
                    foldl_spec_absorb]
      | some k =>
          cases hsub : CJson.getCS desired k with
          | none =>
              simp [List.foldl, deltaDispatchSpecStep, hk, hsub, delta_dispatch, ih]
          | some sub =>
              cases himp : h.impl (some k) (some sub) with
              | none =>
                  simp [List.foldl, deltaDispatchSpecStep, hk, hsub, himp,
                        delta_dispatch, ih]
              | some err =>
                  simp [List.foldl, deltaDispatchSpecStep, hk, hsub, himp,
                        delta_dispatch, foldl_spec_absorb]

/-- Claim C8: on a delta whose payload carries a string request id, the
handlers run exactly as the specification dispatch describes — registration
order, keyless handlers get the whole desired document, keyed handlers only
their present sub-object, first user error short-circuits — and that
error's code and message are published on `delta/rejected` together with
the delta's request id. -/
theorem delta_arrived_dispatch_order (handlers : List ShadowPropertyDeltaHandler)
    (topics : TopicContract) (payload : Option CJson) (rid : String)
    (hrid : message_get_request_id payload = some (some rid)) :
    device_management_delta_arrived handlers topics payload
      = some ((deltaDispatchSpec (CJson.getCS payload "desired") handlers).1,
              (deltaDispatchSpec (CJson.getCS payload "desired") handlers).2.map
                (fun err => { topic := topics.deltaRejected,
                              payload := CJson.obj
                                [("code", CJson.str err.code),
                                 ("message", CJson.str err.message),
                                 ("requestId", CJson.str rid)] })) := by
  have hspec := foldl_spec_delta_dispatch (CJson.getCS payload "desired") handlers []
  cases hd2 : (delta_dispatch (CJson.getCS payload "desired") handlers).2 with
  | none =>
      simp [device_management_delta_arrived, hrid, hd2, deltaDispatchSpec, hspec]
  | some err =>
      simp [device_management_delta_arrived, hrid, hd2, deltaDispatchSpec, hspec,
            device_management_shadow_send_json, addRequestId]

/-- Witness for C8: the keyless handler accepts, the handler keyed on
"bright" rejects with E_RANGE, and the rejection is published on dev1's
`delta/rejected` topic with request id "r9". -/
theorem delta_arrived_dispatch_order_witness :
    device_management_delta_arrived [rootHandler, brightHandler]
        (topic_contract_create "dev1") (some sampleDeltaPayload)
      = some ((deltaDispatchSpec (CJson.getCS (some sampleDeltaPayload) "desired")
                 [rootHandler, brightHandler]).1,
              (deltaDispatchSpec (CJson.getCS (some sampleDeltaPayload) "desired")
                 [rootHandler, brightHandler]).2.map
                (fun err => { topic := (topic_contract_create "dev1").deltaRejected,
                              payload := CJson.obj
                                [("code", CJson.str err.code),
                                 ("message", CJson.str err.message),
                                 ("requestId", CJson.str "r9")] })) :=
  delta_arrived_dispatch_order [rootHandler, brightHandler]
    (topic_contract_create "dev1") (some sampleDeltaPayload) "r9" rfl

/-- A slot that is not past its deadline is untouched by a reaper pass. -/
theorem houseKeepSlot_not_expired (now : Nat) (m : InFlightMessage)
    (h : ¬((m.timeout : Int) < (now : Int) - (m.timestamp : Int))) :
    houseKeepSlot now m = (m, none) := by
  have hc : (!m.free && decide ((now : Int) - (m.timestamp : Int)
      > (m.timeout : Int))) = false := by
    simp [gt_iff_lt, h]
  simp [houseKeepSlot, hc]

/-- A free slot is untouched by a reaper pass. -/
theorem houseKeepSlot_free (now : Nat) (m : InFlightMessage) (h : m.free = true) :
    houseKeepSlot now m = (m, none) := by
  simp [houseKeepSlot, h]

/-- An occupied, overdue slot with a callback fires the timeout ack and is
freed. -/
theorem houseKeepSlot_fires (now : Nat) (m : InFlightMessage) (cb : Nat)
    (hocc : m.free = false) (hcb : m.callback = some cb)
    (hexp : (m.timeout : Int) < (now : Int) - (m.timestamp : Int)) :
    houseKeepSlot now m
      = ({ m with free := true },
         some { cb := cb, action := m.action,
                status := ShadowAckStatus.SHADOW_ACK_TIMEOUT,
                ack := none, context := m.callbackContext }) := by
  simp [houseKeepSlot, hocc, hcb, gt_iff_lt, hexp]

/-- Inverting a fired reaper pass on one slot: the slot was occupied and
overdue, its callback is the fired one, and it ends up freed. -/
theorem houseKeepSlot_snd_some (now : Nat) (m : InFlightMessage) (e : AckEvent)
    (h : (houseKeepSlot now m).2 = some e) :
    m.free = false ∧ (m.timeout : Int) < (now : Int) - (m.timestamp : Int) ∧
    m.callback = some e.cb ∧ (houseKeepSlot now m).1 = { m with free := true } ∧
    e = { cb := e.cb, action := m.action,
          status := ShadowAckStatus.SHADOW_ACK_TIMEOUT,
          ack := none, context := m.callbackContext } := by
  by_cases hc : (!m.free && decide ((now : Int) - (m.timestamp : Int)
      > (m.timeout : Int))) = true
  · have hb := hc
    simp only [Bool.and_eq_true, Bool.not_eq_true', decide_eq_true_eq, gt_iff_lt] at hb
    obtain ⟨hocc, hexp⟩ := hb
    have h1 : (houseKeepSlot now m).1 = { m with free := true } := by
      simp [houseKeepSlot, hc]
    have h2 : (houseKeepSlot now m).2 = m.callback.map (fun cb =>
        { cb := cb, action := m.action,
          status := ShadowAckStatus.SHADOW_ACK_TIMEOUT,
          ack := none, context := m.callbackContext }) := by
      simp [houseKeepSlot, hc]
    rw [h2] at h
    cases hcb : m.callback with
    | none => rw [hcb] at h; simp at h
    | some cb =>
        rw [hcb] at h
        simp only [Option.map_some', Option.some.injEq] at h
        subst h
        refine ⟨hocc, hexp, rfl, ?_, rfl⟩
        rw [hcb] at h1
        exact h1
  · have hn : houseKeepSlot now m = (m, none) := by
      simp only [houseKeepSlot]
      rw [if_neg hc]
    rw [hn] at h
    simp at h

/-- A reaper pass never changes a slot's identity fields, only `free`. -/
theorem houseKeepSlot_fields (now : Nat) (m : InFlightMessage) :
    (houseKeepSlot now m).1.timestamp = m.timestamp ∧
    (houseKeepSlot now m).1.timeout = m.timeout ∧
    (houseKeepSlot now m).1.action = m.action ∧
    (houseKeepSlot now m).1.callback = m.callback ∧
    (houseKeepSlot now m).1.callbackContext = m.callbackContext := by
  unfold houseKeepSlot
  split <;> simp

/-- Pointwise view of a reaper pass over the whole table: slot `i` of the
result is slot `i` of the input put through `houseKeepSlot`. -/
theorem house_keep_getElem (now : Nat) (vault : List InFlightMessage) (i : Nat) :
    (in_flight_message_house_keep now vault).1[i]?
      = (vault[i]?).map (fun m => (houseKeepSlot now m).1) := by
  induction vault generalizing i with
  | nil => simp [in_flight_message_house_keep]
  | cons m rest ih =>
      cases i with
      | zero => simp [in_flight_message_house_keep]
      | succ j => simpa [in_flight_message_house_keep] using ih j

/-- Shifting slot indices up by one removes every index-0 event. -/
theorem filter_shift_zero (l : List (Nat × AckEvent)) :
    (l.map (fun p => (p.1 + 1, p.2))).filter (fun p => p.1 == 0) = [] := by
  induction l with
  | nil => rfl
  | cons p rest ih => simpa [List.filter] using ih

/-- Filtering shifted events at index `i + 1` is filtering at `i`, shifted. -/
theorem filter_shift_succ (l : List (Nat × AckEvent)) (i : Nat) :
    (l.map (fun p => (p.1 + 1, p.2))).filter (fun p => p.1 == i + 1)
      = (l.filter (fun p => p.1 == i)).map (fun p => (p.1 + 1, p.2)) := by
  induction l with
  | nil => rfl
  | cons p rest ih =>
      have hb2 : (p.1 + 1 == i + 1) = (p.1 == i) := by simp
      cases hb : (p.1 == i) with
      | true => simp [List.filter, hb2, hb, ih]
      | false => simp [List.filter, hb2, hb, ih]

/-- The events of a reaper pass carrying slot index `i` are exactly what
`houseKeepSlot` produces on slot `i`. -/
theorem house_keep_filter (now : Nat) (vault : List InFlightMessage) (i : Nat) :
    ((in_flight_message_house_keep now vault).2.filter (fun p => p.1 == i))
      = (((vault[i]?).bind (fun m => (houseKeepSlot now m).2)).map
            (fun e => (i, e))).toList := by
  induction vault generalizing i with
  | nil => simp [in_flight_message_house_keep]
  | cons m rest ih =>
      cases i with
      | zero =>
          cases h2 : (houseKeepSlot now m).2 with
          | none =>
              simp [in_flight_message_house_keep, h2, List.filter_append,
                    filter_shift_zero]
          | some e =>
              simp [in_flight_message_house_keep, h2, List.filter_append,
                    filter_shift_zero, List.filter]
      | succ j =>
          have := ih j
          cases h2 : (houseKeepSlot now m).2 with
          | none =>
              cases h3 : (rest[j]?).bind (fun m => (houseKeepSlot now m).2) with
              | none =>
                  rw [h3] at this
                  simp [in_flight_message_house_keep, h2, List.filter_append,
                        filter_shift_succ, this, h3, List.filter]
              | some e =>
                  rw [h3] at this
                  simp [in_flight_message_house_keep, h2, List.filter_append,
                        filter_shift_succ, this, h3, List.filter]
          | some e0 =>
              cases h3 : (rest[j]?).bind (fun m => (houseKeepSlot now m).2) with
              | none =>
                  rw [h3] at this
                  simp [in_flight_message_house_keep, h2, List.filter_append,
                        filter_shift_succ, this, h3, List.filter]
              | some e =>
                  rw [h3] at this
                  simp [in_flight_message_house_keep, h2, List.filter_append,
                        filter_shift_succ, this, h3, List.filter]

/-- The reaper loop acts on slot `i` exactly as `slotTicks` acts on its
contents: final state and fired events (tagged with tick time and index)
coincide. -/
theorem reaperRun_slot (ticks : List Nat) :
    ∀ (vault : List InFlightMessage) (i : Nat) (m : InFlightMessage),
    vault[i]? = some m →
    (reaperRun ticks vault).1[i]? = some (slotTicks ticks m).1 ∧
    ((reaperRun ticks vault).2.filter (fun p => p.2.1 == i))
      = (slotTicks ticks m).2.map (fun q => (q.1, i, q.2)) := by
  induction ticks with
  | nil =>
      intro vault i m hm
      exact ⟨by simpa [reaperRun, slotTicks] using hm, by simp [reaperRun, slotTicks]⟩
  | cons t ts ih =>
      intro vault i m hm
      have hg : (in_flight_message_house_keep t vault).1[i]?
          = some ((houseKeepSlot t m).1) := by
        rw [house_keep_getElem, hm]; rfl
      obtain ⟨ih1, ih2⟩ := ih (in_flight_message_house_keep t vault).1 i
          ((houseKeepSlot t m).1) hg
      refine ⟨by simpa [reaperRun, slotTicks] using ih1, ?_⟩
      have hmapfilter :
          (((in_flight_message_house_keep t vault).2.map
              (fun p => (t, p.1, p.2))).filter (fun p => p.2.1 == i))
            = ((in_flight_message_house_keep t vault).2.filter
                (fun p => p.1 == i)).map (fun p => (t, p.1, p.2)) := by
        rw [List.filter_map]
        rfl
      have hinner := house_keep_filter t vault i
      rw [hm] at hinner
      simp only [Option.some_bind] at hinner
      cases h2 : (houseKeepSlot t m).2 with
      | none =>
          rw [h2] at hinner
          simp [reaperRun, slotTicks, List.filter_append, hmapfilter, hinner,
                ih2, h2]
      | some e =>
          rw [h2] at hinner
          simp [reaperRun, slotTicks, List.filter_append, hmapfilter, hinner,
                ih2, h2]

/-- A freed slot is never fired again by later reaper passes. -/
theorem slotTicks_free (ticks : List Nat) (m : InFlightMessage)
    (h : m.free = true) : slotTicks ticks m = (m, []) := by
  induction ticks with
  | nil => rfl
  | cons t ts ih => simp [slotTicks, houseKeepSlot_free t m h, ih]

/-- Every timeout fired for a slot fires strictly after its deadline
`timestamp + timeout` — a request still within its timeout is never
reaped. -/
theorem slotTicks_fires_late (ticks : List Nat) :
    ∀ (m : InFlightMessage) (q : Nat × AckEvent), q ∈ (slotTicks ticks m).2 →
    (m.timeout : Int) < (q.1 : Int) - (m.timestamp : Int) := by
  induction ticks with
  | nil => intro m q hq; simp [slotTicks] at hq
  | cons t ts ih =>
      intro m q hq
      have hq' : q ∈ (match (houseKeepSlot t m).2 with
          | some e => [(t, e)] | none => []) ++ (slotTicks ts (houseKeepSlot t m).1).2 := by
        simpa [slotTicks] using hq
      rcases List.mem_append.mp hq' with h1 | h2
      · cases he : (houseKeepSlot t m).2 with
        | none => rw [he] at h1; simp at h1
        | some e =>
            rw [he] at h1
            simp only [List.mem_singleton] at h1
            obtain ⟨hocc, hexp, -, -, -⟩ := houseKeepSlot_snd_some t m e he
            subst h1
            exact hexp
      · have hb := ih (houseKeepSlot t m).1 q h2
        obtain ⟨hts, hto, -, -, -⟩ := houseKeepSlot_fields t m
        rw [hts, hto] at hb
        exact hb

/-- Under ticks at every whole second covering the deadline, an occupied
slot with a callback fires its timeout exactly once, at wall time
`timestamp + timeout + 1`. -/
theorem slotTicks_range_fires (m : InFlightMessage) (cb : Nat)
    (hocc : m.free = false) (hcb : m.callback = some cb) :
    ∀ (n s : Nat), s ≤ m.timestamp + m.timeout + 1 →
      m.timestamp + m.timeout + 1 < s + n →
      (slotTicks (List.range' s n 1) m).2
        = [(m.timestamp + m.timeout + 1,
            { cb := cb, action := m.action,
              status := ShadowAckStatus.SHADOW_ACK_TIMEOUT,
              ack := none, context := m.callbackContext })] := by
  intro n
  induction n with
  | zero => intro s h1 h2; exact absurd h2 (by omega)
  | succ k ih =>
      intro s h1 h2
      rw [List.range'_succ]
      by_cases hs : s = m.timestamp + m.timeout + 1
      · subst hs
        have hexp : (m.timeout : Int)
            < ((m.timestamp + m.timeout + 1 : Nat) : Int) - (m.timestamp : Int) := by
          omega
        have hk := houseKeepSlot_fires (m.timestamp + m.timeout + 1) m cb hocc hcb hexp
        have hfree : ({ m with free := true } : InFlightMessage).free = true := rfl
        simp [slotTicks, hk,
              slotTicks_free (List.range' (m.timestamp + m.timeout + 1 + 1) k 1) _ hfree]
      · have hlt : s < m.timestamp + m.timeout + 1 := lt_of_le_of_ne h1 hs
        have hnot : ¬((m.timeout : Int) < (s : Int) - (m.timestamp : Int)) := by
          omega
        have hk := houseKeepSlot_not_expired s m hnot
        have ihr := ih (s + 1) (by omega) (by omega)
        simp [slotTicks, hk, ihr]

/-- Claim C9: an in-flight request that never receives a reply is never
reaped within its timeout `t` (every fired timeout comes strictly after
`publish + t`), and once the reaper ticks every second across the deadline
the timeout callback fires at a wall time in `[publish + t, publish + t + 1]`
(with the 1-second tick, at `publish + t + 1` exactly). -/
theorem timeout_fires_in_window (vault : List InFlightMessage) (i : Nat)
    (m : InFlightMessage) (cb : Nat) (hm : vault[i]? = some m)
    (hocc : m.free = false) (hcb : m.callback = some cb) :
    (∀ (ticks : List Nat) (q : Nat × Nat × AckEvent),
        q ∈ (reaperRun ticks vault).2 → q.2.1 = i →
        (m.timeout : Int) < (q.1 : Int) - (m.timestamp : Int)) ∧
    (∀ s n : Nat, s ≤ m.timestamp + m.timeout + 1 →
        m.timestamp + m.timeout + 1 < s + n →
        ∃ u, ((reaperRun (List.range' s n 1) vault).2.filter
                (fun p => p.2.1 == i))
              = [(u, i, { cb := cb, action := m.action,
                          status := ShadowAckStatus.SHADOW_ACK_TIMEOUT,
                          ack := none, context := m.callbackContext })] ∧
            m.timestamp + m.timeout ≤ u ∧ u ≤ m.timestamp + m.timeout + 1) := by
  constructor
  · intro ticks q hq hqi
    obtain ⟨-, hfilter⟩ := reaperRun_slot ticks vault i m hm
    have hqmem : q ∈ (reaperRun ticks vault).2.filter (fun p => p.2.1 == i) :=
      List.mem_filter.mpr ⟨hq, by simp [hqi]⟩
    rw [hfilter] at hqmem
    obtain ⟨q', hq', hqq⟩ := List.mem_map.mp hqmem
    have := slotTicks_fires_late ticks m q' hq'
    rw [← hqq]
    exact this
  · intro s n h1 h2
    obtain ⟨-, hfilter⟩ := reaperRun_slot (List.range' s n 1) vault i m hm
    rw [slotTicks_range_fires m cb hocc hcb n s h1 h2] at hfilter
    exact ⟨m.timestamp + m.timeout + 1, by simpa using hfilter, by omega, by omega⟩

/-- Witness for C9: the pending DELETE request (published at 100, timeout
5) is reaped exactly at tick 106 during a run of ticks 100..109. -/
theorem timeout_fires_in_window_witness :
    ∃ u, ((reaperRun (List.range' 100 10 1) [pendingDeleteSlot]).2.filter
            (fun p => p.2.1 == 0))
          = [(u, 0, { cb := 7, action := ShadowAction.SHADOW_DELETE,
                      status := ShadowAckStatus.SHADOW_ACK_TIMEOUT,
                      ack := none, context := 3 })] ∧
        pendingDeleteSlot.timestamp + pendingDeleteSlot.timeout ≤ u ∧
        u ≤ pendingDeleteSlot.timestamp + pendingDeleteSlot.timeout + 1 :=
  (timeout_fires_in_window [pendingDeleteSlot] 0 pendingDeleteSlot 7
      (by simp) rfl rfl).2 100 10 (by decide) (by decide)

/-- Fired-callback counts add over concatenated event lists. -/
theorem countFires_append (a b : List (Nat × AckEvent)) (i : Nat) :
    countFires (a ++ b) i = countFires a i + countFires b i := by
  simp [countFires, List.filter_append]

/-- A zero count means no event of the list carries slot index `i`. -/
theorem countFires_zero_not_mem (l : List (Nat × AckEvent)) (i : Nat)
    (h : countFires l i = 0) (p : Nat × AckEvent) (hp : p ∈ l) : p.1 ≠ i := by
  intro hpi
  have hmem : p ∈ l.filter (fun p => p.1 == i) :=
    List.mem_filter.mpr ⟨hp, by simp [hpi]⟩
  have := List.length_pos.mpr (List.ne_nil_of_mem hmem)
  simp only [countFires] at h
  omega

/-- A matching slot is occupied. -/
theorem slotMatches_occupied (m : InFlightMessage) (rid : String)
    (h : slotMatches m rid = true) : m.free = false := by
  simp only [slotMatches, Bool.and_eq_true, Bool.not_eq_true'] at h
  exact h.1

/-- Inversion of `device_management_shadow_handle_response`: either nothing
matched and everything is unchanged, or exactly one occupied matching slot
was freed and its callback fired. -/
theorem handle_response_cases (vault : List InFlightMessage) (rid : String)
    (action : ShadowAction) (status : ShadowAckStatus) (payload : Option CJson)
    (rc : DmReturnCode) (v' : List InFlightMessage) (ev : Option (Nat × AckEvent))
    (h : device_management_shadow_handle_response vault rid action status payload
        = some (rc, v', ev)) :
    (rc = DmReturnCode.NO_MATCHING_IN_FLIGHT_MESSAGE ∧ v' = vault ∧ ev = none) ∨
    (∃ j mj cbj ack, vault[j]? = some mj ∧ slotMatches mj rid = true ∧
       buildAck status payload = some ack ∧ mj.callback = some cbj ∧
       rc = DmReturnCode.SUCCESS ∧ v' = vault.set j { mj with free := true } ∧
       ev = some (j, { cb := cbj, action := action, status := status,
                       ack := some ack, context := mj.callbackContext })) := by
  induction vault generalizing rc v' ev with
  | nil =>
      left
      simp only [device_management_shadow_handle_response, Option.some.injEq,
                 Prod.mk.injEq] at h
      exact ⟨h.1.symm, h.2.1.symm, h.2.2.symm⟩
  | cons m rest ih =>
      simp only [device_management_shadow_handle_response] at h
      by_cases hsm : slotMatches m rid = true
      · rw [if_pos hsm] at h
        cases hka : buildAck status payload with
        | none => rw [hka] at h; simp at h
        | some ack =>
            cases hkb : m.callback with
            | none => rw [hka, hkb] at h; simp at h
            | some cbm =>
                rw [hka, hkb] at h
                simp only [Option.some.injEq, Prod.mk.injEq] at h
                obtain ⟨h1, h2, h3⟩ := h
                subst h1
                subst h2
                subst h3
                right
                refine ⟨0, m, cbm, ack, by simp, hsm, rfl, hkb, rfl, ?_, rfl⟩
                simp [hkb]
      · rw [if_neg hsm] at h
        cases hrec : device_management_shadow_handle_response rest rid action
            status payload with
        | none => rw [hrec] at h; simp at h
        | some r =>
            obtain ⟨rc2, rest2, ev2⟩ := r
            rw [hrec] at h
            simp only [Option.some.injEq, Prod.mk.injEq] at h
            obtain ⟨h1, h2, h3⟩ := h
            subst h1
            subst h2
            subst h3
            rcases ih rc2 rest2 ev2 hrec with ⟨g1, g2, g3⟩ |
                ⟨j, mj, cbj, ack, g1, g2, g3, g4, g5, g6, g7⟩
            · subst g1
              subst g2
              subst g3
              exact Or.inl ⟨rfl, rfl, rfl⟩
            · subst g5
              subst g6
              subst g7
              right
              exact ⟨j + 1, mj, cbj, ack, by simpa using g1, g2, g3, g4, rfl,
                     by simp, rfl⟩

/-- A reaper pass that does not fire an occupied slot with a callback
leaves the slot exactly as it was. -/
theorem houseKeepSlot_none_cb (now : Nat) (m : InFlightMessage) (cb : Nat)
    (hcb : m.callback = some cb) (h2 : (houseKeepSlot now m).2 = none) :
    (houseKeepSlot now m).1 = m := by
  by_cases hc : (!m.free && decide ((now : Int) - (m.timestamp : Int)
      > (m.timeout : Int))) = true
  · exfalso
    have hmap : (houseKeepSlot now m).2 = m.callback.map (fun cb =>
        { cb := cb, action := m.action,
          status := ShadowAckStatus.SHADOW_ACK_TIMEOUT,
          ack := none, context := m.callbackContext }) := by
      simp [houseKeepSlot, hc]
    rw [hmap, hcb] at h2
    simp at h2
  · have hn : houseKeepSlot now m = (m, none) := by
      simp only [houseKeepSlot]
      rw [if_neg hc]
    rw [hn]

/-- The effect of one event on one occupied slot with a callback: either it
does not touch the slot (and a reaper pass at a time past the deadline is
excluded), or it fires the slot's callback exactly once and frees it. -/
theorem applyEvent_slot (e : TableEvent) (vault v1 : List InFlightMessage)
    (f1 : List (Nat × AckEvent)) (i : Nat) (m : InFlightMessage) (cb : Nat)
    (h : applyEvent e vault = some (v1, f1)) (hm : vault[i]? = some m)
    (hocc : m.free = false) (hcb : m.callback = some cb) :
    (countFires f1 i = 0 ∧ v1[i]? = some m ∧
       ∀ now, e = TableEvent.houseKeep now →
         ¬((m.timeout : Int) < (now : Int) - (m.timestamp : Int))) ∨
    (countFires f1 i = 1 ∧ slotFreed v1 i ∧
       ∀ p ∈ f1, p.1 = i → p.2.cb = cb ∧ p.2.context = m.callbackContext) := by
  have hlen : i < vault.length := (List.getElem?_eq_some.mp hm).1
  cases e with
  | complete rid action status payload =>
      simp only [applyEvent, Option.map_eq_some'] at h
      obtain ⟨⟨rc, v2, ev⟩, hr, heq⟩ := h
      simp only [Prod.mk.injEq] at heq
      obtain ⟨hv, hf⟩ := heq
      subst hv
      subst hf
      rcases handle_response_cases vault rid action status payload rc v2 ev hr with
        ⟨-, hveq, hev⟩ | ⟨j, mj, cbj, ack, g1, g2, g3, g4, g5, g6, g7⟩
      · subst hev
        exact Or.inl ⟨by simp [countFires], by rw [hveq]; exact hm,
                      fun now hnow => TableEvent.noConfusion hnow⟩
      · subst g6
        subst g7
        by_cases hji : j = i
        · subst hji
          have hmj : mj = m := by
            rw [hm] at g1
            exact ((Option.some.injEq _ _).mp g1).symm
          subst hmj
          right
          refine ⟨by simp [countFires], ?_, ?_⟩
          · intro m' hm'
            rw [List.getElem?_set, if_pos rfl, if_pos hlen] at hm'
            rw [← (Option.some.injEq _ _).mp hm']
          · intro p hp hpi
            simp only [Option.toList_some, List.mem_singleton] at hp
            subst hp
            have hcbj : cbj = cb := by
              rw [g4] at hcb
              exact (Option.some.injEq _ _).mp hcb
            exact ⟨hcbj, rfl⟩
        · left
          refine ⟨?_, ?_, fun now hnow => TableEvent.noConfusion hnow⟩
          · have hb : (j == i) = false := beq_eq_false_iff_ne.mpr hji
            simp [countFires, List.filter, hb]
          · rw [List.getElem?_set_ne hji]
            exact hm
  | houseKeep now =>
      simp only [applyEvent, Option.some.injEq] at h
      have hv : v1 = (in_flight_message_house_keep now vault).1 := by rw [h]
      have hf : f1 = (in_flight_message_house_keep now vault).2 := by rw [h]
      subst hv
      subst hf
      have hget := house_keep_getElem now vault i
      rw [hm] at hget
      simp only [Option.map_some'] at hget
      have hfilter := house_keep_filter now vault i
      rw [hm] at hfilter
      simp only [Option.some_bind] at hfilter
      cases h2 : (houseKeepSlot now m).2 with
      | none =>
          rw [h2] at hfilter
          simp only [Option.map_none', Option.toList_none] at hfilter
          left
          refine ⟨by simp [countFires, hfilter], ?_, ?_⟩
          · rw [hget, houseKeepSlot_none_cb now m cb hcb h2]
          · intro now' hnow hexp
            have hnn : now = now' := by cases hnow; rfl
            subst hnn
            have hfired := houseKeepSlot_fires now m cb hocc hcb hexp
            rw [hfired] at h2
            simp at h2
      | some ev =>
          rw [h2] at hfilter
          simp only [Option.map_some', Option.toList_some] at hfilter
          obtain ⟨-, -, hcb2, hfst, hev⟩ := houseKeepSlot_snd_some now m ev h2
          right
          refine ⟨by simp [countFires, hfilter], ?_, ?_⟩
          · intro m' hm'
            rw [hget, hfst] at hm'
            rw [← (Option.some.injEq _ _).mp hm']
          · intro p hp hpi
            have hpmem : p ∈ (in_flight_message_house_keep now vault).2.filter
                (fun p => p.1 == i) :=
              List.mem_filter.mpr ⟨hp, by simp [hpi]⟩
            rw [hfilter] at hpmem
            simp only [List.mem_singleton] at hpmem
            subst hpmem
            constructor
            · have hsc : some cb = some ev.cb := by rw [← hcb, ← hcb2]
              exact ((Option.some.injEq _ _).mp hsc).symm
            · rw [hev]

/-- No event can fire or re-occupy a slot that holds no occupied entry. -/
theorem applyEvent_freed (e : TableEvent) (vault v1 : List InFlightMessage)
    (f1 : List (Nat × AckEvent)) (i : Nat)
    (h : applyEvent e vault = some (v1, f1)) (hfree : slotFreed vault i) :
    slotFreed v1 i ∧ countFires f1 i = 0 := by
  cases e with
  | complete rid action status payload =>
      simp only [applyEvent, Option.map_eq_some'] at h
      obtain ⟨⟨rc, v2, ev⟩, hr, heq⟩ := h
      simp only [Prod.mk.injEq] at heq
      obtain ⟨hv, hf⟩ := heq
      subst hv
      subst hf
      rcases handle_response_cases vault rid action status payload rc v2 ev hr with
        ⟨-, hveq, hev⟩ | ⟨j, mj, cbj, ack, g1, g2, g3, g4, g5, g6, g7⟩
      · subst hev
        subst hveq
        exact ⟨hfree, by simp [countFires]⟩
      · subst g6
        subst g7
        have hocc := slotMatches_occupied mj rid g2
        have hji : j ≠ i := by
          intro hji
          subst hji
          have hmf := hfree mj g1
          rw [hmf] at hocc
          exact Bool.noConfusion hocc
        constructor
        · intro m' hm'
          rw [List.getElem?_set_ne hji] at hm'
          exact hfree m' hm'
        · have hb : (j == i) = false := beq_eq_false_iff_ne.mpr hji
          simp [countFires, List.filter, hb]
  | houseKeep now =>
      simp only [applyEvent, Option.some.injEq] at h
      have hv : v1 = (in_flight_message_house_keep now vault).1 := by rw [h]
      have hf : f1 = (in_flight_message_house_keep now vault).2 := by rw [h]
      subst hv
      subst hf
      have hget := house_keep_getElem now vault i
      have hfilter := house_keep_filter now vault i
      cases hm : vault[i]? with
      | none =>
          rw [hm] at hget hfilter
          simp only [Option.map_none'] at hget
          simp only [Option.none_bind, Option.map_none', Option.toList_none] at hfilter
          refine ⟨fun m' hm' => ?_, by simp [countFires, hfilter]⟩
          rw [hget] at hm'
          exact Option.noConfusion hm'
      | some m =>
          have hmf : m.free = true := hfree m hm
          rw [hm] at hget hfilter
          simp only [Option.map_some'] at hget
          simp only [Option.some_bind] at hfilter
          have hks := houseKeepSlot_free now m hmf
          simp only [hks] at hget hfilter
          simp only [Option.map_none', Option.toList_none] at hfilter
          refine ⟨fun m' hm' => ?_, by simp [countFires, hfilter]⟩
          rw [hget] at hm'
          rw [← (Option.some.injEq _ _).mp hm']
          exact hmf

/-- Once a slot holds no occupied entry, no sequence of replies and reaper
passes ever fires it. -/
theorem runEvents_freed (es : List TableEvent) :
    ∀ (vault : List InFlightMessage) (i : Nat), slotFreed vault i →
    countFires (runEvents es vault).2.1 i = 0 := by
  induction es with
  | nil => intro vault i _; simp [runEvents, countFires]
  | cons e es ih =>
      intro vault i hfree
      cases ha : applyEvent e vault with
      | none => simp [runEvents, ha, countFires]
      | some r =>
          obtain ⟨v1, f1⟩ := r
          obtain ⟨hfree1, hcount⟩ := applyEvent_freed e vault v1 f1 i ha hfree
          simp [runEvents, ha, countFires_append, hcount, ih v1 i hfree1]

/-- Claim C1: over any mutex-serialized sequence of broker replies
(`device_management_shadow_handle_response`) and reaper passes
(`in_flight_message_house_keep`), the callback of an in-flight request
fires at most once; every fired ack for its slot is delivered to the
request's own callback and context (with one of the three statuses, by
construction of `ShadowAckStatus`); and if the run does not crash and some
reaper pass happens past the request's deadline, the callback fires exactly
once — completion and expiry each free the slot, so no second fire can
happen. -/
theorem request_callback_exactly_once (i : Nat) (m : InFlightMessage) (cb : Nat)
    (hocc : m.free = false) (hcb : m.callback = some cb) (es : List TableEvent) :
    ∀ (vault : List InFlightMessage), vault[i]? = some m →
    countFires (runEvents es vault).2.1 i ≤ 1 ∧
    (∀ p ∈ (runEvents es vault).2.1, p.1 = i →
        p.2.cb = cb ∧ p.2.context = m.callbackContext) ∧
    ((runEvents es vault).2.2 = false →
     (∃ now, TableEvent.houseKeep now ∈ es ∧
        (m.timeout : Int) < (now : Int) - (m.timestamp : Int)) →
     countFires (runEvents es vault).2.1 i = 1) := by
  induction es with
  | nil =>
      intro vault _
      refine ⟨by simp [runEvents, countFires], by simp [runEvents],
              fun _ hlate => ?_⟩
      obtain ⟨now, hmem, -⟩ := hlate
      simp at hmem
  | cons e es ih =>
      intro vault hm
      cases ha : applyEvent e vault with
      | none =>
          refine ⟨by simp [runEvents, ha, countFires], by simp [runEvents, ha],
                  fun hcrash _ => ?_⟩
          simp [runEvents, ha] at hcrash
      | some r =>
          obtain ⟨v1, f1⟩ := r
          have hres1 : (runEvents (e :: es) vault).2.1
              = f1 ++ (runEvents es v1).2.1 := by
            simp [runEvents, ha]
          have hres2 : (runEvents (e :: es) vault).2.2
              = (runEvents es v1).2.2 := by
            simp [runEvents, ha]
          rcases applyEvent_slot e vault v1 f1 i m cb ha hm hocc hcb with
            ⟨hc0, hpres, hnolate⟩ | ⟨hc1, hfreed, hcbid⟩
          · obtain ⟨ih1, ih2, ih3⟩ := ih v1 hpres
            refine ⟨?_, ?_, ?_⟩
            · rw [hres1, countFires_append, hc0]
              simpa using ih1
            · intro p hp hpi
              rw [hres1] at hp
              rcases List.mem_append.mp hp with h1 | h2
              · exact absurd hpi (countFires_zero_not_mem f1 i hc0 p h1)
              · exact ih2 p h2 hpi
            · intro hcrash hlate
              rw [hres2] at hcrash
              obtain ⟨now, hmem, hexp⟩ := hlate
              rcases List.mem_cons.mp hmem with he | he
              · exact absurd hexp (hnolate now he.symm)
              · rw [hres1, countFires_append, hc0]
                simpa using ih3 hcrash ⟨now, he, hexp⟩
          · have hrest0 := runEvents_freed es v1 i hfreed
            refine ⟨?_, ?_, ?_⟩
            · rw [hres1, countFires_append, hc1, hrest0]
            · intro p hp hpi
              rw [hres1] at hp
              rcases List.mem_append.mp hp with h1 | h2
              · exact hcbid p h1 hpi
              · exact absurd hpi (countFires_zero_not_mem _ i hrest0 p h2)
            · intro _ _
              rw [hres1, countFires_append, hc1, hrest0]

/-- Witness for C1: the pending DELETE request fires exactly once when the
reaper passes at time 106, past its deadline 105. -/
theorem request_callback_exactly_once_witness :
    countFires (runEvents [TableEvent.houseKeep 106] [pendingDeleteSlot]).2.1 0 = 1 :=
  (request_callback_exactly_once 0 pendingDeleteSlot 7 rfl rfl
      [TableEvent.houseKeep 106] [pendingDeleteSlot] (by simp)).2.2 rfl
    ⟨106, List.mem_cons_self _ _, by decide⟩
